import Mathlib

/-!
Verification of the BLS12-381 G1 hash-to-curve implementation
(`src/bls381g1.rs`): SSWU map, isogeny evaluation, hash-to-field,
suite facades and their constants.

The big-integer / field / curve primitive library (`amcl_miracl`) is an
external collaborator of the crate; its operations are modelled here by
the operation contracts of the specification (results canonicalised to
`[0, p)`, `inv0(0) = 0`, constant-time conditional move, canonical
compare).  Field elements are Lean `Nat`s with explicit reduction
`% pbls` wherever the source performs a reduction.
-/

set_option maxRecDepth 2000000
set_option exponentiation.threshold 2000

namespace Bls381G1

/-- The BLS12-381 base prime `p`.  Modelled from the spec: the source takes
`MODULUS` from the external `amcl_miracl::bls381::rom`, which is not part of
this repository; the spec fixes it as "the BLS12-381 base prime, 381 bits". -/
def pbls : Nat :=
  0x1a0111ea397fe69a4b1ba7b6434bacd764774b84f38512bf6730d2a0f6b0f6241eabfffeb153ffffb9feffffffffaaab

/-- Value of a radix-2^58 signed-limb array, as used by the `amcl` `BIG`
type for the BLS12-381 field (limb `w[i]` contributes `w[i] * 2^(58*i)`). -/
def bigVal : List Int → Int
  | [] => 0
  | w :: ws => w + 2 ^ 58 * bigVal ws

/-- Limb array of the constant `PM1DIV2` from the source. -/
def PM1DIV2 : List Int :=
  [71916856549561685, 108086211381297143, 186063435852751093, 218960087668936289,
   225643796693662629, 229680090418738422, 3490221905]

/-- Limb array of the constant `H_EFF` from the source. -/
def H_EFF : List Int := [144396663052632065, 52, 0, 0, 0, 0, 0]

/-- Limb array of the constant `C1` from the source (limbs may be negative). -/
def C1 : List Int :=
  [132416828320029820, -36241730206030966, -183175740354038500, -108808289511770161,
   19716962043635886, 150180602526288156, 2033276157]

/-- Limb array of the constant `C2` from the source. -/
def C2 : List Int :=
  [170292360909944894, 176868607242987704, 7626954141253676, 39810925030715689,
   14823383385055774, 15557254971433191, 634585801]

/-- Limb array of the constant `SQRT_C1` from the source. -/
def SQRT_C1 : List Int :=
  [180073616350636715, 198158293766504443, 237146906002231418, 253595231910324016,
   112821898346831314, 258955233285225083, 1745110952]

/-- Canonical field value of `PM1DIV2`. -/
def PM1DIV2val : Nat := (bigVal PM1DIV2 % (pbls : Int)).toNat

/-- Canonical field value of `C1`. -/
def C1val : Nat := (bigVal C1 % (pbls : Int)).toNat

/-- Canonical field value of `C2`. -/
def C2val : Nat := (bigVal C2 % (pbls : Int)).toNat

/-- Canonical value of `SQRT_C1`. -/
def SQRT_C1val : Nat := (bigVal SQRT_C1 % (pbls : Int)).toNat

/-- Canonical value of `H_EFF` (a scalar, not a field element). -/
def H_EFFval : Nat := (bigVal H_EFF).toNat

/-- `BIG::modmul(a, b, MODULUS)`: the external library reduces both operands
and the product (spec contract: result canonicalised to `[0, p)`). -/
def modmul (a b : Nat) : Nat := a % pbls * (b % pbls) % pbls

/-- `BIG::modsqr(a, MODULUS)`. -/
def modsqr (a : Nat) : Nat := modmul a a

/-- `BIG::modneg(a, MODULUS)` (spec contract: canonicalised negation). -/
def modneg (a : Nat) : Nat := (pbls - a % pbls) % pbls

/-- `BIG::cmove(&self, b, cond)`: constant-time conditional move; replaces
the receiver with `b` when `cond` holds. -/
def cmov (a b : Nat) (cond : Bool) : Nat := if cond then b else a

/-- Fuelled binary modular exponentiation; `powmodAux p x fuel e = x^e % p`
whenever `e < 2^fuel`.  This is the square-and-multiply computation the
external `BIG::powmod` performs. -/
def powmodAux (p x : Nat) : Nat → Nat → Nat
  | 0, _ => 1 % p
  | fuel+1, e =>
    if e = 0 then 1 % p
    else if e % 2 = 1 then x * powmodAux p (x * x % p) fuel (e / 2) % p
    else powmodAux p (x * x % p) fuel (e / 2)

/-- `BIG::powmod(x, e, MODULUS)` (spec contract: `pow(x, e) = x^e mod p`).
Exponents in this development are below `2^600`. -/
def powmod (x e p : Nat) : Nat := powmodAux p (x % p) 600 e

theorem powmodAux_correct (p : Nat) :
    ∀ fuel x e, e < 2 ^ fuel → powmodAux p x fuel e = x ^ e % p := by
  intro fuel
  induction fuel with
  | zero =>
    intro x e he
    have h0 : e = 0 := by omega
    subst h0
    simp [powmodAux]
  | succ n ih =>
    intro x e he
    have hstep : powmodAux p x (n+1) e =
        if e = 0 then 1 % p
        else if e % 2 = 1 then x * powmodAux p (x * x % p) n (e / 2) % p
        else powmodAux p (x * x % p) n (e / 2) := rfl
    by_cases h0 : e = 0
    · subst h0; simp [hstep]
    · have hdiv : e / 2 < 2 ^ n := by
        have h2 : e < 2 * 2 ^ n := by
          rw [pow_succ] at he
          omega
        exact Nat.div_lt_of_lt_mul h2
      have hr := ih (x * x % p) (e / 2) hdiv
      have key : powmodAux p (x * x % p) n (e / 2) = x ^ (2 * (e / 2)) % p := by
        rw [hr, ← Nat.pow_mod, ← pow_two, ← pow_mul]
      rw [hstep, if_neg h0]
      rcases Nat.even_or_odd e with he2 | he2
      · have hmod : e % 2 = 0 := Nat.even_iff.mp he2
        have he' : 2 * (e / 2) = e := by omega
        rw [if_neg (by omega : ¬ e % 2 = 1), key, he']
      · have hmod : e % 2 = 1 := Nat.odd_iff.mp he2
        have he' : 2 * (e / 2) + 1 = e := by omega
        rw [if_pos hmod]
        calc x * powmodAux p (x * x % p) n (e / 2) % p
            = x * (x ^ (2 * (e / 2)) % p) % p := by rw [key]
          _ = x * x ^ (2 * (e / 2)) % p := by
              rw [Nat.mul_mod, Nat.mod_mod_of_dvd _ (dvd_refl p), ← Nat.mul_mod]
          _ = x ^ e % p := by
              conv_rhs => rw [← he', pow_succ, mul_comm (x ^ (2 * (e / 2))) x]

theorem powmod_correct (x e p : Nat) (he : e < 2 ^ 600) :
    powmod x e p = x ^ e % p := by
  rw [powmod, powmodAux_correct p 600 (x % p) e he, ← Nat.pow_mod]

attribute [irreducible] powmodAux powmod

theorem PM1DIV2val_eq : PM1DIV2val = (pbls - 1) / 2 := by decide

theorem SQRT_C1val_eq : SQRT_C1val = (pbls + 1) / 4 := by decide

/-- `sgn0` from the source: `if *x > PM1DIV2 { Ordering::Less } else { Ordering::Greater }`. -/
def sgn0 (x : Nat) : Ordering :=
  if PM1DIV2val < x then Ordering.lt else Ordering.gt

/-- C7: the static limb-array constants encode exactly the specified integers
in the field library's radix-2^58 limb representation: `PM1DIV2 = (p-1)/2`,
`SQRT_C1 = (p+1)/4` and `H_EFF = 0xd201000000010001`. -/
theorem limb_constants_encode_specified_integers :
    bigVal PM1DIV2 = (((pbls - 1) / 2 : Nat) : Int) ∧
    bigVal SQRT_C1 = (((pbls + 1) / 4 : Nat) : Int) ∧
    bigVal H_EFF = ((0xd201000000010001 : Nat) : Int) := by
  refine ⟨by decide, by decide, by decide⟩

/-- C10: `sgn0` is total and two-valued: on canonical inputs it returns
`Greater` exactly when `x ≤ (p-1)/2`, `Less` exactly when `x > (p-1)/2`,
never `Equal`; consequently `sgn0 a = sgn0 b` holds iff `a` and `b` lie on
the same side of `(p-1)/2`. -/
theorem sgn0_total_two_valued (x a b : Nat) (hx : x < pbls) :
    (x ≤ (pbls - 1) / 2 → sgn0 x = Ordering.gt) ∧
    ((pbls - 1) / 2 < x → sgn0 x = Ordering.lt) ∧
    sgn0 x ≠ Ordering.eq ∧
    (sgn0 a = sgn0 b ↔ (a ≤ (pbls - 1) / 2 ↔ b ≤ (pbls - 1) / 2)) := by
  unfold sgn0
  rw [PM1DIV2val_eq]
  refine ⟨?_, ?_, ?_, ?_⟩
  · intro h; rw [if_neg (by omega)]
  · intro h; rw [if_pos h]
  · by_cases h : (pbls - 1) / 2 < x
    · rw [if_pos h]; decide
    · rw [if_neg h]; decide
  · by_cases ha : (pbls - 1) / 2 < a <;> by_cases hb : (pbls - 1) / 2 < b <;>
      simp [ha, hb] <;> omega

theorem sgn0_total_two_valued_witness :
    (0 : Nat) < pbls ∧
    (((0 : Nat) ≤ (pbls - 1) / 2 → sgn0 0 = Ordering.gt) ∧
     ((pbls - 1) / 2 < 0 → sgn0 0 = Ordering.lt) ∧
     sgn0 0 ≠ Ordering.eq ∧
     (sgn0 0 = sgn0 1 ↔ ((0 : Nat) ≤ (pbls - 1) / 2 ↔ (1 : Nat) ≤ (pbls - 1) / 2))) :=
  ⟨by decide, sgn0_total_two_valued 0 0 1 (by decide)⟩

/-- C1 counterexample: there is NO mapping of the draft's reference sign
values `sgn0(x) = x mod 2` onto the implementation's `Ordering` tokens that
agrees with the implementation's `sgn0` on all boundary values
`{0, 1, (p-1)/2, (p-1)/2+1, p-1}`: the implementation sends both `0` and
`p-1` (which have integer lifts of equal parity) to different tokens. -/
theorem sgn0_disagrees_with_reference_on_boundary :
    ¬ ∃ m : Nat → Ordering,
      (sgn0 0 = m (0 % 2) ∧ sgn0 1 = m (1 % 2) ∧
       sgn0 ((pbls - 1) / 2) = m (((pbls - 1) / 2) % 2) ∧
       sgn0 ((pbls - 1) / 2 + 1) = m (((pbls - 1) / 2 + 1) % 2) ∧
       sgn0 (pbls - 1) = m ((pbls - 1) % 2)) := by
  rintro ⟨m, h0, -, -, -, h4⟩
  have e0 : sgn0 0 = Ordering.gt := by decide
  have e4 : sgn0 (pbls - 1) = Ordering.lt := by decide
  have m0 : (0 : Nat) % 2 = 0 := by decide
  have m4 : (pbls - 1) % 2 = 0 := by decide
  rw [e0, m0] at h0
  rw [e4, m4] at h4
  exact absurd (h0.trans h4.symm) (by decide)

/-- C1 amended: on the boundary values the implementation's `sgn0` follows
the half-range convention: `Greater` on `{0, 1, (p-1)/2}` and `Less` on
`{(p-1)/2+1, p-1}` (so `0` and `1`, whose parities differ, receive the same
token, which rules out any parity-based token mapping). -/
theorem sgn0_boundary_values_half_range :
    sgn0 0 = Ordering.gt ∧ sgn0 1 = Ordering.gt ∧
    sgn0 ((pbls - 1) / 2) = Ordering.gt ∧
    sgn0 ((pbls - 1) / 2 + 1) = Ordering.lt ∧
    sgn0 (pbls - 1) = Ordering.lt :=
  ⟨by decide, by decide, by decide, by decide, by decide⟩

/-- `BIG::invmodp` as used by the source (spec contract `inv0`): modular
inverse with `inv0(0) = 0`, realised as the Fermat power `x^(p-2) mod p`. -/
def inv0 (x : Nat) : Nat := powmod x (pbls - 2) pbls

attribute [irreducible] inv0

/-- `is_square` from the source: raise to `PM1DIV2`, then the limb test
`sum == 0 && (t.w[0] == 0 || t.w[0] == 1)`, i.e. the canonical value of the
power is 0 or 1. -/
def is_square (x : Nat) : Bool :=
  let t := powmod x PM1DIV2val pbls
  t == 0 || t == 1

/-- `sqrt_3mod4` from the source: `x.powmod(&SQRT_C1, &MODULUS)`. -/
def sqrt_3mod4 (x : Nat) : Nat := powmod x SQRT_C1val pbls

/-- Modelled from the spec: the SSWU parameter `Z` lives in
`crate::isogeny::bls381g1`, which is not under `src/`; the spec calls it
"the non-square SSWU parameter" and the draft fixes `Z = 11` for the
BLS12381G1 suites.  Validated against the in-source `C2 = -1/Z` constant
by `Z_matches_C2`. -/
def Zswu : Nat := 11

/-- Modelled from the spec: `ISO_A`, the coefficient `A'` of the isogenous
curve `E' : y^2 = x^3 + A'x + B'`, from `crate::isogeny::bls381g1` (not under
`src/`); the value is the draft's §8.7 constant.  Validated against the
in-source `C1 = -B'/A'` constant by `ISO_A_C1_matches_ISO_B`. -/
def ISO_A : Nat :=
  0x144698a3b8e9433d693a02c96d4982b0ea985383ee66a8d8e8981aefd881ac98936f8da0e0f97f5cf428082d584c1d

/-- Modelled from the spec: `ISO_B`, the coefficient `B'` of the isogenous
curve, from `crate::isogeny::bls381g1` (not under `src/`); the value is the
draft's §8.7 constant.  Validated by `ISO_A_C1_matches_ISO_B`. -/
def ISO_B : Nat :=
  0x12e2908d11688030018b12e8753eee3b2016c1f0f24f4070a0b9c14fcef35ef55a23215a316ceaa5d1cc48e98e172be0

/-- Consistency of the modelled `Z` with the in-source `C2` limb constant:
`C2 = -1/Z (mod p)`, i.e. `C2 * Z ≡ -1 (mod p)`. -/
theorem Z_matches_C2 : C2val * Zswu % pbls = pbls - 1 := by decide

/-- Consistency of the modelled `ISO_A`/`ISO_B` with the in-source `C1` limb
constant: `C1 = -B'/A' (mod p)`, i.e. `A' * C1 ≡ -B' (mod p)`. -/
theorem ISO_A_C1_matches_ISO_B : ISO_A * C1val % pbls = pbls - ISO_B := by decide

/-- `map_to_curve_simple_swu` translated operation-for-operation from the
source: `modmul`/`modsqr` reduce through the external library, `add`
followed by `rmod` reduces explicitly, `inc(1)` does NOT reduce, and the
final `y` is selected by `cmove` between `modneg(y)` and `y`. -/
def map_to_curve_simple_swu (u : Nat) : Nat × Nat :=
  let tv1 := modmul Zswu (modsqr u)
  let tv2 := modsqr tv1
  let x1s := (tv1 + tv2) % pbls
  let x1i := inv0 x1s
  let e1 := x1i == 0
  let x1p := x1i + 1
  let x1c := cmov x1p C2val e1
  let x1 := modmul x1c C1val
  let gx1a := modsqr x1
  let gx1b := (gx1a + ISO_A) % pbls
  let gx1c := modmul gx1b x1
  let gx1 := (gx1c + ISO_B) % pbls
  let x2 := modmul tv1 x1
  let tv2b := modmul tv1 tv2
  let gx2 := modmul gx1 tv2b
  let e2 := is_square gx1
  let x := cmov x2 x1 e2
  let y2 := cmov gx2 gx1 e2
  let y := sqrt_3mod4 y2
  let e3 := sgn0 u == sgn0 y
  let yneg := cmov (modneg y) y e3
  (x, yneg)

/-- Canonical modular multiplication, used by the spec-side recipe. -/
def mulp (a b : Nat) : Nat := a * b % pbls

/-- Canonical modular addition, used by the spec-side recipe. -/
def addp (a b : Nat) : Nat := (a + b) % pbls

/-- The spec's 16-step constant-time SSWU recipe (§4.4 of the spec),
written step by step over canonical field elements. -/
def sswu_spec (u : Nat) : Nat × Nat :=
  let tv1 := mulp Zswu (mulp u u)
  let tv2 := mulp tv1 tv1
  let x1s := addp tv1 tv2
  let x1i := inv0 x1s
  let e1 := x1i == 0
  let x1p := addp x1i 1
  let x1c := cmov x1p C2val e1
  let x1 := mulp x1c C1val
  let gx1 := addp (mulp (addp (mulp x1 x1) ISO_A) x1) ISO_B
  let x2 := mulp tv1 x1
  let tv2b := mulp tv1 tv2
  let gx2 := mulp gx1 tv2b
  let e2 := is_square gx1
  let x := cmov x2 x1 e2
  let y2 := cmov gx2 gx1 e2
  let y := sqrt_3mod4 y2
  let e3 := sgn0 u == sgn0 y
  let yf := cmov (modneg y) y e3
  (x, yf)

theorem modmul_eq (a b : Nat) : modmul a b = a * b % pbls := by
  rw [modmul, ← Nat.mul_mod]

theorem modsqr_eq (a : Nat) : modsqr a = a * a % pbls := by
  rw [modsqr, modmul_eq]

theorem x1_step_eq (v : Nat) :
    cmov (v + 1) C2val (v == 0) * C1val % pbls
      = cmov ((v + 1) % pbls) C2val (v == 0) * C1val % pbls := by
  cases hv : (v == 0) with
  | false => simp [cmov, Nat.mod_mul_mod]
  | true => simp [cmov]

/-- C2: `map_to_curve_simple_swu` computes exactly the spec's 16-step
constant-time recipe: the same `inv0`/`+1`/`cmov C2`/`* C1` treatment of
`x1` (steps 4-8), and the final sign selection `y ← cmov(-y, y, sgn0(u) ==
sgn0(y))` (step 16).  The only textual difference — the source's `inc(1)`
does not reduce mod p while the recipe's step 6 does — is absorbed by the
reduction inside the subsequent multiplication by `C1`. -/
theorem map_to_curve_simple_swu_matches_recipe (u : Nat) :
    map_to_curve_simple_swu u = sswu_spec u := by
  unfold map_to_curve_simple_swu sswu_spec
  simp only [modmul_eq, modsqr_eq, mulp, addp]
  simp only [x1_step_eq]

/-- Big-endian octet-string-to-integer, the draft's `OS2IP` (spec side). -/
def os2ip : List Nat → Nat
  | [] => 0
  | b :: bs => b * 256 ^ bs.length + os2ip bs

/-- `field_elem_from_larger_bytearray` from the source: a `DBIG` accumulator
shifted left by 8 with the next byte added into the low limb, finally
reduced by `dmod(&MODULUS)`. -/
def field_elem_from_larger_bytearray (random_bytes : List Nat) : Nat :=
  (random_bytes.foldl (fun d b => d * 2 ^ 8 + b) 0) % pbls

theorem foldl_shl_eq_os2ip :
    ∀ (bs : List Nat) (a : Nat),
      bs.foldl (fun d b => d * 2 ^ 8 + b) a = a * 256 ^ bs.length + os2ip bs := by
  intro bs
  induction bs with
  | nil => intro a; simp [os2ip]
  | cons b bs ih =>
    intro a
    simp only [List.foldl_cons, os2ip, ih, List.length_cons]
    ring

/-- Error type of the crate (modelled from the spec §7: `InvalidDst`,
`InvalidExpansionLength`; the defensive `PrimitiveContract` case cannot
arise in this model, where hash output sizes are carried by hypotheses). -/
inductive HashingError where
  | invalidDst
  | invalidExpansionLength
deriving DecidableEq

/-- The draft's `I2OSP`: big-endian encoding of `x` on a fixed number of
octets. -/
def I2OSP (x : Nat) : Nat → List Nat
  | 0 => []
  | n+1 => I2OSP (x / 256) n ++ [x % 256]

/-- Bytewise XOR of two equal-length strings. -/
def strxor (a b : List Nat) : List Nat := List.zipWith (fun x y => x ^^^ y) a b

/-- The DST suffix used by every expansion call.  Modelled from the spec:
`expand_message_*` and the `DomainSeparationTag` serialisation are not under
`src/`.  The spec's §4.1 text says the length octet is APPENDED
(`DST || I2OSP(len(DST),1)`), but the repository's own §8 test vectors
(reproduced by `hash_to_field_xmd_ro` on the empty message) are generated
with the length octet PREPENDED; this model follows the program behaviour
evidenced by those vectors. -/
def DST_prime (dst : List Nat) : List Nat := I2OSP dst.length 1 ++ dst

/-- Blocks `b_2 .. b_ell` of `expand_message_xmd`:
`b_i = H(strxor(b_(i-1), b_0) || I2OSP(i, 1) || DST_prime)`. -/
def xmdRest (H : List Nat → List Nat) (b0 dstp : List Nat) :
    List Nat → Nat → Nat → List Nat
  | _, _, 0 => []
  | prev, i, k+1 =>
    let bi := H (strxor prev b0 ++ I2OSP i 1 ++ dstp)
    bi ++ xmdRest H b0 dstp bi (i+1) k

/-- `b_0 = H(Z_pad || msg || I2OSP(len, 2) || I2OSP(0, 1) || DST_prime)`
(spec §4.1, `Z_pad` is `r_in_bytes = 64` zero octets). -/
def xmdB0 (H : List Nat → List Nat) (msg dst : List Nat) (len_in_bytes : Nat) :
    List Nat :=
  H (List.replicate 64 0 ++ msg ++ I2OSP len_in_bytes 2 ++ [0] ++ DST_prime dst)

/-- `b_1 = H(b_0 || I2OSP(1, 1) || DST_prime)` (spec §4.1). -/
def xmdB1 (H : List Nat → List Nat) (msg dst : List Nat) (len_in_bytes : Nat) :
    List Nat :=
  H (xmdB0 H msg dst len_in_bytes ++ I2OSP 1 1 ++ DST_prime dst)

/-- `b_1 || b_2 || … || b_ell`, truncated to `len_in_bytes` (spec §4.1). -/
def xmdBytes (H : List Nat → List Nat) (msg dst : List Nat) (len_in_bytes : Nat) :
    List Nat :=
  (xmdB1 H msg dst len_in_bytes ++
    xmdRest H (xmdB0 H msg dst len_in_bytes) (DST_prime dst)
      (xmdB1 H msg dst len_in_bytes) 2 ((len_in_bytes + 31) / 32 - 1)).take len_in_bytes

/-- `expand_message_xmd` (modelled from the spec §4.1; the implementation
lives outside `src/`).  `H` is the fixed-output hash (32-byte output,
64-byte block for the crate's `Digest<OutputSize = U32>` instantiations). -/
def expand_message_xmd (H : List Nat → List Nat) (msg dst : List Nat)
    (len_in_bytes : Nat) : Except HashingError (List Nat) :=
  if 255 < dst.length then .error .invalidDst
  else if 65535 < len_in_bytes then .error .invalidExpansionLength
  else if 255 < (len_in_bytes + 31) / 32 then .error .invalidExpansionLength
  else .ok (xmdBytes H msg dst len_in_bytes)

/-- `expand_message_xof` (modelled from the spec §4.2): feed
`msg || I2OSP(len, 2) || DST_prime` to the XOF and read `len` bytes. -/
def expand_message_xof (xof : List Nat → Nat → List Nat) (msg dst : List Nat)
    (len_in_bytes : Nat) : Except HashingError (List Nat) :=
  if 255 < dst.length then .error .invalidDst
  else if 65535 < len_in_bytes then .error .invalidExpansionLength
  else .ok (xof (msg ++ I2OSP len_in_bytes 2 ++ DST_prime dst) len_in_bytes)

/-- `hash_to_field_xmd_nu` from the source: expand to 64 bytes, reduce once. -/
def hash_to_field_xmd_nu (H : List Nat → List Nat) (msg dst : List Nat) :
    Except HashingError Nat :=
  (expand_message_xmd H msg dst 64).map field_elem_from_larger_bytearray

/-- `hash_to_field_xmd_ro` from the source: expand to 128 bytes, reduce
`random_bytes[0..64]` to `u_0` and `random_bytes[64..]` to `u_1`. -/
def hash_to_field_xmd_ro (H : List Nat → List Nat) (msg dst : List Nat) :
    Except HashingError (Nat × Nat) :=
  (expand_message_xmd H msg dst 128).map fun rb =>
    (field_elem_from_larger_bytearray (rb.take 64),
     field_elem_from_larger_bytearray (rb.drop 64))

/-- `hash_to_field_xof_nu` from the source. -/
def hash_to_field_xof_nu (xof : List Nat → Nat → List Nat) (msg dst : List Nat) :
    Except HashingError Nat :=
  (expand_message_xof xof msg dst 64).map field_elem_from_larger_bytearray

/-- `hash_to_field_xof_ro` from the source. -/
def hash_to_field_xof_ro (xof : List Nat → Nat → List Nat) (msg dst : List Nat) :
    Except HashingError (Nat × Nat) :=
  (expand_message_xof xof msg dst 128).map fun rb =>
    (field_elem_from_larger_bytearray (rb.take 64),
     field_elem_from_larger_bytearray (rb.drop 64))

theorem xmdRest_length (H : List Nat → List Nat) (b0 dstp : List Nat)
    (hH : ∀ s, (H s).length = 32) :
    ∀ (k : Nat) (prev : List Nat) (i : Nat),
      (xmdRest H b0 dstp prev i k).length = 32 * k := by
  intro k
  induction k with
  | zero => intro prev i; rfl
  | succ n ih =>
    intro prev i
    simp only [xmdRest, List.length_append, hH, ih]
    ring

theorem field_elem_eq_os2ip (bs : List Nat) :
    field_elem_from_larger_bytearray bs = os2ip bs % pbls := by
  rw [field_elem_from_larger_bytearray, foldl_shl_eq_os2ip]
  simp

/-- Curve points of the external `amcl` `ECP` type, in affine coordinates
(spec contract: `curve_from_xy(x, y)` constructs a point, with `(x, y)`
required to lie on `E`; `inf` is the group identity). -/
inductive ECP where
  | inf : ECP
  | aff : (x : Nat) → (y : Nat) → ECP
deriving DecidableEq

/-- `iso_map_helper` from the source: accumulate `modmul(x[i], k[i])` for
`i` below the coefficient table's length, reducing after each addition. -/
def iso_map_helper (x k : List Nat) : Nat :=
  (List.zipWith modmul x k).foldl (fun nx t => (nx + t) % pbls) 0

/-- Entry `i` of the source's `x_values` monomial array:
`x_values[0] = 1`, `x_values[1] = x'`, `x_values[2] = modsqr(x')`,
`x_values[i] = modmul(x_values[i-1], x')` for `3 ≤ i ≤ 15`. -/
def x_values_aux (x_prime : Nat) : Nat → Nat
  | 0 => 1
  | 1 => x_prime
  | 2 => modsqr x_prime
  | n+3 => modmul (x_values_aux x_prime (n+2)) x_prime

/-- The source's 16-entry `x_values` array `[1, x', x'^2, …, x'^15]`. -/
def x_values (x_prime : Nat) : List Nat :=
  (List.range 16).map (x_values_aux x_prime)

/-- `iso_map` from the source, parameterised by the four coefficient tables
(the concrete `X_NUM`/`X_DEN`/`Y_NUM`/`Y_DEN` constants live in
`crate::isogeny::bls381g1`, which is not under `src/`): evaluate the four
polynomials with `iso_map_helper`, invert both denominators with the
library's `invmodp` (`inv0` contract, no branching), and construct the
point `x = XNUM/XDEN`, `y = y' * YNUM/YDEN`. -/
def iso_map (xnum xden ynum yden : List Nat) (x_prime y_prime : Nat) : ECP :=
  let xs := x_values x_prime
  let x := modmul (iso_map_helper xs xnum) (inv0 (iso_map_helper xs xden))
  let y := modmul (modmul (iso_map_helper xs ynum) (inv0 (iso_map_helper xs yden))) y_prime
  ECP.aff x y

/-- Raw Horner evaluation `k[0] + x*(k[1] + x*(…))` of a coefficient list
(spec side; ascending powers of `x`). -/
def hornerRaw (k : List Nat) (x : Nat) : Nat :=
  k.foldr (fun c a => c + x * a) 0

/-- Canonical polynomial evaluation `Σ_i k[i]·x^i mod p` (spec side). -/
def polyEval (k : List Nat) (x : Nat) : Nat := hornerRaw k x % pbls

theorem x_values_aux_mod (x' : Nat) :
    ∀ i, x_values_aux x' i % pbls = x' ^ i % pbls := by
  intro i
  induction i using Nat.strong_induction_on with
  | _ i ih =>
    match i, ih with
    | 0, _ => simp [x_values_aux]
    | 1, _ => simp [x_values_aux]
    | 2, _ =>
      rw [x_values_aux, modsqr_eq, Nat.mod_mod_of_dvd _ (dvd_refl pbls), ← pow_two]
    | (n+3), ih =>
      rw [x_values_aux, modmul, Nat.mod_mod_of_dvd _ (dvd_refl pbls),
        ih (n+2) (by omega), ← Nat.mul_mod, ← pow_succ]

theorem helper_eval (x' : Nat) :
    ∀ (k : List Nat) (j n acc : Nat), k.length ≤ n → acc < pbls →
      (List.zipWith modmul ((List.range n).map (fun i => x_values_aux x' (j + i))) k).foldl
          (fun nx t => (nx + t) % pbls) acc
        = (acc + x' ^ j * hornerRaw k x') % pbls := by
  intro k
  induction k with
  | nil =>
    intro j n acc hn hacc
    simp [hornerRaw, Nat.mod_eq_of_lt hacc]
  | cons c k ih =>
    intro j n acc hn hacc
    match n with
    | 0 => simp at hn
    | m+1 =>
      rw [List.range_succ_eq_map, List.map_cons, List.map_map, List.zipWith_cons_cons,
        List.foldl_cons]
      have hmap : (List.map ((fun i => x_values_aux x' (j + i)) ∘ Nat.succ) (List.range m))
          = List.map (fun i => x_values_aux x' (j + 1 + i)) (List.range m) := by
        refine List.map_congr_left ?_
        intro a _
        show x_values_aux x' (j + (a + 1)) = x_values_aux x' (j + 1 + a)
        congr 1
        omega
      rw [hmap]
      have hlen : k.length ≤ m := by simpa using hn
      have hacc' : (acc + modmul (x_values_aux x' (j + 0)) c) % pbls < pbls :=
        Nat.mod_lt _ (by decide)
      rw [ih (j+1) m ((acc + modmul (x_values_aux x' (j + 0)) c) % pbls) hlen hacc']
      have hterm : modmul (x_values_aux x' (j + 0)) c = x' ^ j * c % pbls := by
        rw [modmul, x_values_aux_mod, Nat.add_zero, ← Nat.mul_mod]
      rw [hterm, Nat.mod_add_mod, Nat.add_right_comm acc (x' ^ j * c % pbls),
        Nat.add_mod_mod]
      have hh : hornerRaw (c :: k) x' = c + x' * hornerRaw k x' := rfl
      rw [hh]
      congr 1
      ring

theorem iso_map_helper_eval (x' : Nat) (k : List Nat) (hk : k.length ≤ 16) :
    iso_map_helper (x_values x') k = polyEval k x' := by
  rw [iso_map_helper, x_values, polyEval]
  have h0 : (List.range 16).map (x_values_aux x') =
      (List.range 16).map (fun i => x_values_aux x' (0 + i)) := by
    refine List.map_congr_left ?_
    intro a _
    rw [Nat.zero_add]
  rw [h0, helper_eval x' k 0 16 0 hk (by decide)]
  simp

/-- C6: `iso_map` evaluates the four isogeny polynomials over the monomial
vector `[1, x', …, x'^15]` as accumulated sums truncated to each table's
length, and returns the point with `x = XNUM(x') * inv0(XDEN(x')) mod p`
and `y = y' * YNUM(x') * inv0(YDEN(x')) mod p`, the inversions using the
`inv0` convention without branching on the denominator. -/
theorem iso_map_is_rational_map (xnum xden ynum yden : List Nat) (x' y' : Nat)
    (h1 : xnum.length ≤ 16) (h2 : xden.length ≤ 16)
    (h3 : ynum.length ≤ 16) (h4 : yden.length ≤ 16) :
    iso_map xnum xden ynum yden x' y' =
      ECP.aff (mulp (polyEval xnum x') (inv0 (polyEval xden x')))
        (mulp (mulp y' (polyEval ynum x')) (inv0 (polyEval yden x'))) := by
  simp only [iso_map]
  rw [iso_map_helper_eval x' xnum h1, iso_map_helper_eval x' xden h2,
    iso_map_helper_eval x' ynum h3, iso_map_helper_eval x' yden h4]
  simp only [modmul_eq, mulp]
  refine congrArg₂ ECP.aff rfl ?_
  rw [Nat.mod_mul_mod, Nat.mod_mul_mod]
  congr 1
  ring

theorem iso_map_is_rational_map_witness :
    (([(5 : Nat)].length ≤ 16) ∧ ([(7 : Nat)].length ≤ 16) ∧
      ([(9 : Nat)].length ≤ 16) ∧ ([(11 : Nat)].length ≤ 16)) ∧
    iso_map [5] [7] [9] [11] 2 3 =
      ECP.aff (mulp (polyEval [5] 2) (inv0 (polyEval [7] 2)))
        (mulp (mulp 3 (polyEval [9] 2)) (inv0 (polyEval [11] 2))) :=
  ⟨⟨by decide, by decide, by decide, by decide⟩,
   iso_map_is_rational_map [5] [7] [9] [11] 2 3
     (by decide) (by decide) (by decide) (by decide)⟩

/-- C4: the byte-to-field reduction returns `OS2IP(b) mod p` (big-endian
interpretation, reduced once by the double-width modulus operation), and
`hash_to_field` in RO mode expands to 128 bytes and reduces the two 64-byte
halves independently and in order. -/
theorem hash_to_field_reduces_os2ip_halves
    (bs : List Nat) (H : List Nat → List Nat) (msg dst : List Nat)
    (hH : ∀ s, (H s).length = 32) :
    field_elem_from_larger_bytearray bs = os2ip bs % pbls ∧
    field_elem_from_larger_bytearray bs < pbls ∧
    (∀ rb, expand_message_xmd H msg dst 128 = .ok rb →
      rb.length = 128 ∧
      hash_to_field_xmd_ro H msg dst =
        .ok (os2ip (rb.take 64) % pbls, os2ip (rb.drop 64) % pbls)) := by
  refine ⟨field_elem_eq_os2ip bs, ?_, ?_⟩
  · rw [field_elem_from_larger_bytearray]
    exact Nat.mod_lt _ (by decide)
  · intro rb hok
    have hrb : rb = xmdBytes H msg dst 128 := by
      rw [expand_message_xmd] at hok
      split_ifs at hok
      all_goals first
        | (exfalso; exact Except.noConfusion hok)
        | (injection hok with h; exact h.symm)
    have hlen : rb.length = 128 := by
      rw [hrb, xmdBytes, List.length_take, List.length_append, xmdB1, hH,
        xmdRest_length H _ _ hH]
      norm_num
    refine ⟨hlen, ?_⟩
    rw [hash_to_field_xmd_ro, hok]
    simp only [Except.map]
    rw [field_elem_eq_os2ip, field_elem_eq_os2ip]

theorem hash_to_field_reduces_os2ip_halves_witness :
    (∀ s : List Nat, ((fun _ : List Nat => List.replicate 32 (0 : Nat)) s).length = 32) ∧
    (field_elem_from_larger_bytearray [7] = os2ip [7] % pbls ∧
     field_elem_from_larger_bytearray [7] < pbls ∧
     (∀ rb, expand_message_xmd (fun _ => List.replicate 32 0) [] [] 128 = .ok rb →
       rb.length = 128 ∧
       hash_to_field_xmd_ro (fun _ => List.replicate 32 0) [] [] =
         .ok (os2ip (rb.take 64) % pbls, os2ip (rb.drop 64) % pbls))) :=
  ⟨fun _ => by simp,
   hash_to_field_reduces_os2ip_halves [7] (fun _ => List.replicate 32 0) [] []
     (fun _ => by simp)⟩

/-- Full affine-coordinate addition on `E : y^2 = x^3 + 4`, the external
`ECP::add` (spec contract: standard group operation; handles the identity,
the doubling case and inverse points). -/
def ecp_add (P Q : ECP) : ECP :=
  match P, Q with
  | .inf, q => q
  | p, .inf => p
  | .aff ax ay, .aff bx my =>
    if ax % pbls = bx % pbls then
      if (ay + my) % pbls = 0 then .inf
      else
        let lam := modmul (modmul 3 (modsqr ax)) (inv0 (2 * ay % pbls))
        let cx := (modsqr lam + modneg ax + modneg bx) % pbls
        let cy := (modmul lam ((ax + modneg cx) % pbls) + modneg ay) % pbls
        .aff cx cy
    else
      let lam := modmul ((my + modneg ay) % pbls) (inv0 ((bx + modneg ax) % pbls))
      let cx := (modsqr lam + modneg ax + modneg bx) % pbls
      let cy := (modmul lam ((ax + modneg cx) % pbls) + modneg ay) % pbls
      .aff cx cy

/-- Scalar multiplication, the external `ECP::mul` (double-and-add with the
same fuelled-binary scheme as `powmod`). -/
def ecp_mulAux : Nat → Nat → ECP → ECP
  | 0, _, _ => .inf
  | f+1, k, P =>
    if k = 0 then .inf
    else if k % 2 = 1 then ecp_add (ecp_mulAux f (k / 2) (ecp_add P P)) P
    else ecp_mulAux f (k / 2) (ecp_add P P)

/-- `p.mul(&k)` of the external library. -/
def ecp_mul (P : ECP) (k : Nat) : ECP := ecp_mulAux 600 k P

attribute [irreducible] ecp_mulAux ecp_mul

/-- The four isogeny coefficient tables of `crate::isogeny::bls381g1`
(not under `src/`), abstracted as data. -/
structure IsoTables where
  xnum : List Nat
  xden : List Nat
  ynum : List Nat
  yden : List Nat

/-- `clear_cofactor` from the source: `p.mul(&H_EFF)`. -/
def clear_cofactor (p : ECP) : ECP := ecp_mul p H_EFFval

/-- `map_to_curve` from the source: SSWU then `iso_map`. -/
def map_to_curve (T : IsoTables) (u : Nat) : ECP :=
  iso_map T.xnum T.xden T.ynum T.yden
    (map_to_curve_simple_swu u).1 (map_to_curve_simple_swu u).2

/-- `encode_to_curve` from the source. -/
def encode_to_curve (T : IsoTables) (u : Nat) : ECP :=
  clear_cofactor (map_to_curve T u)

/-- `hash_to_curve` from the source: `q0.add(&q1)` then one cofactor
clearing. -/
def hash_to_curve (T : IsoTables) (u0 u1 : Nat) : ECP :=
  clear_cofactor (ecp_add (map_to_curve T u0) (map_to_curve T u1))

/-- `Bls12381G1Sswu::encode_to_curve_xmd`. -/
def encode_to_curve_xmd (T : IsoTables) (H : List Nat → List Nat)
    (msg dst : List Nat) : Except HashingError ECP :=
  (hash_to_field_xmd_nu H msg dst).map (encode_to_curve T)

/-- `Bls12381G1Sswu::hash_to_curve_xmd`. -/
def hash_to_curve_xmd (T : IsoTables) (H : List Nat → List Nat)
    (msg dst : List Nat) : Except HashingError ECP :=
  (hash_to_field_xmd_ro H msg dst).map fun uu => hash_to_curve T uu.1 uu.2

/-- `Bls12381G1Sswu::encode_to_curve_xof`. -/
def encode_to_curve_xof (T : IsoTables) (xof : List Nat → Nat → List Nat)
    (msg dst : List Nat) : Except HashingError ECP :=
  (hash_to_field_xof_nu xof msg dst).map (encode_to_curve T)

/-- `Bls12381G1Sswu::hash_to_curve_xof`. -/
def hash_to_curve_xof (T : IsoTables) (xof : List Nat → Nat → List Nat)
    (msg dst : List Nat) : Except HashingError ECP :=
  (hash_to_field_xof_ro xof msg dst).map fun uu => hash_to_curve T uu.1 uu.2

theorem except_map_error_iff {α β : Type} (g : α → β) (x : Except HashingError α)
    (e : HashingError) : x.map g = .error e ↔ x = .error e := by
  cases x <;> simp [Except.map]

theorem except_map_ok {α β : Type} (g : α → β) (x : Except HashingError α)
    (a : α) (h : x = .ok a) : x.map g = .ok (g a) := by
  subst h; rfl

/-- C5: whenever `hash_to_field` in RO mode succeeds with `(u0, u1)`, the RO
facade returns `clear_cofactor(iso_map(sswu(u0)) + iso_map(sswu(u1)))`,
where `+` is the full curve addition on `E` (with explicit identity
handling) and cofactor clearing happens once, after the addition. -/
theorem hash_to_curve_xmd_composition (T : IsoTables) (H : List Nat → List Nat)
    (msg dst : List Nat) (u0 u1 : Nat)
    (h : hash_to_field_xmd_ro H msg dst = .ok (u0, u1)) :
    hash_to_curve_xmd T H msg dst =
      .ok (clear_cofactor (ecp_add
        (iso_map T.xnum T.xden T.ynum T.yden
          (map_to_curve_simple_swu u0).1 (map_to_curve_simple_swu u0).2)
        (iso_map T.xnum T.xden T.ynum T.yden
          (map_to_curve_simple_swu u1).1 (map_to_curve_simple_swu u1).2))) ∧
    (∀ q, ecp_add ECP.inf q = q) ∧ (∀ q, ecp_add q ECP.inf = q) := by
  refine ⟨?_, ?_, ?_⟩
  · rw [hash_to_curve_xmd, h]
    rfl
  · intro q; cases q <;> rfl
  · intro q; cases q <;> rfl

theorem hash_to_curve_xmd_composition_witness :
    (hash_to_field_xmd_ro (fun _ => List.replicate 32 0) [] [] = .ok (0, 0)) ∧
    (hash_to_curve_xmd ⟨[], [], [], []⟩ (fun _ => List.replicate 32 0) [] [] =
      .ok (clear_cofactor (ecp_add
        (iso_map [] [] [] []
          (map_to_curve_simple_swu 0).1 (map_to_curve_simple_swu 0).2)
        (iso_map [] [] [] []
          (map_to_curve_simple_swu 0).1 (map_to_curve_simple_swu 0).2))) ∧
      (∀ q, ecp_add ECP.inf q = q) ∧ (∀ q, ecp_add q ECP.inf = q)) :=
  ⟨by rfl,
   hash_to_curve_xmd_composition ⟨[], [], [], []⟩ (fun _ => List.replicate 32 0)
     [] [] 0 0 (by rfl)⟩

/-- C8: each of the four facade operations returns an error exactly when its
`hash_to_field` / `expand_message` stage does; when the field elements are
produced, the arithmetic pipeline (SSWU, `iso_map`, curve addition, cofactor
clearing) is a total function and the facade returns `Ok` of its result.
Moreover the RO-mode stages fail exactly on an oversized DST (the length
parameters 64/128 always pass the expansion-parameter checks). -/
theorem facade_errors_iff_expansion_errors (T : IsoTables)
    (H : List Nat → List Nat) (xof : List Nat → Nat → List Nat)
    (msg dst : List Nat) :
    (∀ e, encode_to_curve_xmd T H msg dst = .error e ↔
      hash_to_field_xmd_nu H msg dst = .error e) ∧
    (∀ u, hash_to_field_xmd_nu H msg dst = .ok u →
      encode_to_curve_xmd T H msg dst = .ok (encode_to_curve T u)) ∧
    (∀ e, hash_to_curve_xmd T H msg dst = .error e ↔
      hash_to_field_xmd_ro H msg dst = .error e) ∧
    (∀ uu, hash_to_field_xmd_ro H msg dst = .ok uu →
      hash_to_curve_xmd T H msg dst = .ok (hash_to_curve T uu.1 uu.2)) ∧
    (∀ e, encode_to_curve_xof T xof msg dst = .error e ↔
      hash_to_field_xof_nu xof msg dst = .error e) ∧
    (∀ u, hash_to_field_xof_nu xof msg dst = .ok u →
      encode_to_curve_xof T xof msg dst = .ok (encode_to_curve T u)) ∧
    (∀ e, hash_to_curve_xof T xof msg dst = .error e ↔
      hash_to_field_xof_ro xof msg dst = .error e) ∧
    (∀ uu, hash_to_field_xof_ro xof msg dst = .ok uu →
      hash_to_curve_xof T xof msg dst = .ok (hash_to_curve T uu.1 uu.2)) ∧
    ((∃ e, hash_to_field_xmd_ro H msg dst = .error e) ↔ 255 < dst.length) ∧
    ((∃ e, hash_to_field_xof_ro xof msg dst = .error e) ↔ 255 < dst.length) := by
  refine ⟨fun e => except_map_error_iff _ _ e,
    fun u h => except_map_ok _ _ u h,
    fun e => except_map_error_iff _ _ e,
    fun uu h => except_map_ok _ _ uu h,
    fun e => except_map_error_iff _ _ e,
    fun u h => except_map_ok _ _ u h,
    fun e => except_map_error_iff _ _ e,
    fun uu h => except_map_ok _ _ uu h, ?_, ?_⟩
  · constructor
    · rintro ⟨e, he⟩
      rw [hash_to_field_xmd_ro, except_map_error_iff, expand_message_xmd] at he
      by_contra hd
      rw [if_neg hd, if_neg (by decide), if_neg (by decide)] at he
      exact Except.noConfusion he
    · intro hd
      refine ⟨.invalidDst, ?_⟩
      rw [hash_to_field_xmd_ro, except_map_error_iff, expand_message_xmd, if_pos hd]
  · constructor
    · rintro ⟨e, he⟩
      rw [hash_to_field_xof_ro, except_map_error_iff, expand_message_xof] at he
      by_contra hd
      rw [if_neg hd, if_neg (by decide)] at he
      exact Except.noConfusion he
    · intro hd
      refine ⟨.invalidDst, ?_⟩
      rw [hash_to_field_xof_ro, except_map_error_iff, expand_message_xof, if_pos hd]


/-- 32-bit truncation. -/
def w32 (x : Nat) : Nat := x % 4294967296

def rotr (n x : Nat) : Nat := w32 ((x >>> n) ||| (x <<< (32 - n)))

def bsig0 (x : Nat) : Nat := (rotr 2 x) ^^^ (rotr 13 x) ^^^ (rotr 22 x)
def bsig1 (x : Nat) : Nat := (rotr 6 x) ^^^ (rotr 11 x) ^^^ (rotr 25 x)
def ssig0 (x : Nat) : Nat := (rotr 7 x) ^^^ (rotr 18 x) ^^^ (x >>> 3)
def ssig1 (x : Nat) : Nat := (rotr 17 x) ^^^ (rotr 19 x) ^^^ (x >>> 10)
def chF (x y z : Nat) : Nat := (x &&& y) ^^^ ((x ^^^ 4294967295) &&& z)
def majF (x y z : Nat) : Nat := (x &&& y) ^^^ (x &&& z) ^^^ (y &&& z)

def shaK : List Nat :=
  [1116352408, 1899447441, 3049323471, 3921009573,
   961987163, 1508970993, 2453635748, 2870763221,
   3624381080, 310598401, 607225278, 1426881987,
   1925078388, 2162078206, 2614888103, 3248222580,
   3835390401, 4022224774, 264347078, 604807628,
   770255983, 1249150122, 1555081692, 1996064986,
   2554220882, 2821834349, 2952996808, 3210313671,
   3336571891, 3584528711, 113926993, 338241895,
   666307205, 773529912, 1294757372, 1396182291,
   1695183700, 1986661051, 2177026350, 2456956037,
   2730485921, 2820302411, 3259730800, 3345764771,
   3516065817, 3600352804, 4094571909, 275423344,
   430227734, 506948616, 659060556, 883997877,
   958139571, 1322822218, 1537002063, 1747873779,
   1955562222, 2024104815, 2227730452, 2361852424,
   2428436474, 2756734187, 3204031479, 3329325298]

def shaInit : List Nat :=
  [1779033703, 3144134277, 1013904242, 2773480762,
   1359893119, 2600822924, 528734635, 1541459225]

def schedExtend : List Nat → Nat → List Nat
  | w, 0 => w
  | w, k+1 =>
    schedExtend (w ++ [w32 (ssig1 (w.getD (w.length - 2) 0) +
      w.getD (w.length - 7) 0 + ssig0 (w.getD (w.length - 15) 0) +
      w.getD (w.length - 16) 0)]) k

def roundFn (st : List Nat) (wi ki : Nat) : List Nat :=
  match st with
  | [a, b, c, d, e, f, g, h] =>
    let t1 := h + bsig1 e + chF e f g + ki + wi
    let t2 := bsig0 a + majF a b c
    [w32 (t1 + t2), a, b, c, w32 (d + t1), e, f, g]
  | _ => st

def compress (state block16 : List Nat) : List Nat :=
  let w := schedExtend block16 48
  let fin := (List.zipWith (fun wi ki => (wi, ki)) w shaK).foldl
    (fun st q => roundFn st q.1 q.2) state
  List.zipWith (fun x y => w32 (x + y)) state fin

def sha256pad (m : List Nat) : List Nat :=
  m ++ [128] ++ List.replicate ((64 + 56 - ((m.length + 1) % 64)) % 64) 0 ++
    I2OSP (8 * m.length) 8

def bytesToWords : List Nat → List Nat
  | a :: b :: c :: d :: rest => (((a * 256 + b) * 256 + c) * 256 + d) :: bytesToWords rest
  | _ => []

def chunkWords : Nat → List Nat → List (List Nat)
  | 0, _ => []
  | n+1, ws => if ws = [] then [] else ws.take 16 :: chunkWords n (ws.drop 16)

def sha256 (m : List Nat) : List Nat :=
  let ws := bytesToWords (sha256pad m)
  let st := (chunkWords ws.length ws).foldl compress shaInit
  st.foldr (fun w acc => I2OSP w 4 ++ acc) []

/-- The byte string of the DST
`BLS12381G1_XMD:SHA-256_SSWU_RO_TESTGEN` (base tag
`BLS12381G1_XMD:SHA-256_SSWU_RO_` with application tag `TESTGEN`). -/
def dstTestgen : List Nat :=
  [66, 76, 83, 49, 50, 51, 56, 49, 71, 49, 95, 88, 77, 68, 58, 83, 72, 65, 45,
   50, 53, 54, 95, 83, 83, 87, 85, 95, 82, 79, 95, 84, 69, 83, 84, 71, 69, 78]

/-- SHA-256 agrees with FIPS 180-4 on the empty-string test vector. -/
theorem sha256_empty_vector : sha256 [] =
    [227, 176, 196, 66, 152, 252, 28, 20, 154, 251, 244, 200, 153, 111, 185, 36,
     39, 174, 65, 228, 100, 155, 147, 76, 164, 149, 153, 27, 120, 82, 184, 85] := by
  decide

/-- C9: with SHA-256 and the TESTGEN RO DST, `hash_to_field` in RO mode on
the empty message returns exactly the draft's intermediate vector
`(u_0, u_1)`. -/
theorem hash_to_field_ro_testgen_empty_vector :
    hash_to_field_xmd_ro sha256 [] dstTestgen =
      .ok (0x14700e34d15178550475044b044b4e41ca8d52a655c34f8afea856d21d499f48c9370d2bae4ae8351305493e48d36ab5,
           0x17e2da57f6fd3f11dba6119db4cd26b03e63e67b4e42db678d9c41fdfcaff00ba336d8563abcd9da6c17d2e1784ee858) := by
  rfl

end Bls381G1

namespace Bls381G1

theorem prime_dvd_pow_prod_mem (q : Nat) (hq : Nat.Prime q) :
    ∀ L : List (Nat × Nat), (∀ pe ∈ L, Nat.Prime pe.1) →
      q ∣ (L.map fun pe => pe.1 ^ pe.2).prod → ∃ pe ∈ L, q = pe.1 := by
  intro L
  induction L with
  | nil =>
    intro _ hdvd
    simp only [List.map_nil, List.prod_nil] at hdvd
    exact absurd (Nat.dvd_one.mp hdvd) (Nat.Prime.ne_one hq)
  | cons pe L ih =>
    intro hL hdvd
    rw [List.map_cons, List.prod_cons] at hdvd
    rcases (Nat.Prime.dvd_mul hq).mp hdvd with h | h
    · have h1 : q ∣ pe.1 := Nat.Prime.dvd_of_dvd_pow hq h
      have h2 := (Nat.prime_dvd_prime_iff_eq hq (hL pe (List.mem_cons_self pe L))).mp h1
      exact ⟨pe, List.mem_cons_self pe L, h2⟩
    · obtain ⟨pe', hm, he⟩ := ih (fun x hx => hL x (List.mem_cons_of_mem _ hx)) h
      exact ⟨pe', List.mem_cons_of_mem _ hm, he⟩

/-- Generic Lucas primality certificate: `a` has order `p-1` modulo `p`,
checked through the complete factorisation `L` of `p-1` (`(prime, exponent)`
pairs) with one fixed-base exponentiation per factor. -/
theorem lucas_cert (p a : Nat) (L : List (Nat × Nat))
    (hp : 2 ≤ p) (hsize : p - 1 < 2 ^ 600)
    (hprod : (L.map fun pe => pe.1 ^ pe.2).prod = p - 1)
    (hprimes : ∀ pe ∈ L, Nat.Prime pe.1)
    (ha : powmod a (p - 1) p = 1)
    (hne : ∀ pe ∈ L, powmod a ((p - 1) / pe.1) p ≠ 1) : Nat.Prime p := by
  haveI : NeZero p := ⟨by omega⟩
  haveI : Fact (1 < p) := ⟨by omega⟩
  apply lucas_primality p (a : ZMod p)
  · have hc : ((powmod a (p - 1) p : Nat) : ZMod p) = (a : ZMod p) ^ (p - 1) := by
      rw [powmod_correct a (p - 1) p hsize, ZMod.natCast_mod, Nat.cast_pow]
    rw [← hc, ha, Nat.cast_one]
  · intro q hq hdvd
    rw [← hprod] at hdvd
    obtain ⟨pe, hmem, heq⟩ := prime_dvd_pow_prod_mem q hq L hprimes hdvd
    subst heq
    intro hcon
    have hesz : (p - 1) / pe.1 < 2 ^ 600 :=
      lt_of_le_of_lt (Nat.div_le_self _ _) hsize
    have hc : ((powmod a ((p - 1) / pe.1) p : Nat) : ZMod p) = 1 := by
      rw [powmod_correct a _ p hesz, ZMod.natCast_mod, Nat.cast_pow]
      exact hcon
    have hlt : powmod a ((p - 1) / pe.1) p < p := by
      rw [powmod_correct a _ p hesz]
      exact Nat.mod_lt _ (by omega)
    have hval := congrArg ZMod.val hc
    rw [ZMod.val_natCast_of_lt hlt, ZMod.val_one] at hval
    exact hne pe hmem hval

end Bls381G1

namespace Bls381G1

theorem prime_2 : Nat.Prime 2 := by norm_num

theorem prime_3 : Nat.Prime 3 := by norm_num

theorem prime_5 : Nat.Prime 5 := by norm_num

theorem prime_7 : Nat.Prime 7 := by norm_num

theorem prime_11 : Nat.Prime 11 := by norm_num

theorem prime_13 : Nat.Prime 13 := by norm_num

theorem prime_17 : Nat.Prime 17 := by norm_num

theorem prime_19 : Nat.Prime 19 := by norm_num

theorem prime_23 : Nat.Prime 23 := by norm_num

theorem prime_31 : Nat.Prime 31 := by norm_num

theorem prime_43 : Nat.Prime 43 := by norm_num

theorem prime_47 : Nat.Prime 47 := by norm_num

theorem prime_53 : Nat.Prime 53 := by norm_num

theorem prime_89 : Nat.Prime 89 := by norm_num

theorem prime_113 : Nat.Prime 113 := by norm_num

theorem prime_151 : Nat.Prime 151 := by norm_num

theorem prime_191 : Nat.Prime 191 := by norm_num

theorem prime_409 : Nat.Prime 409 := by norm_num

theorem prime_467 : Nat.Prime 467 := by norm_num

theorem prime_941 : Nat.Prime 941 := by norm_num

theorem prime_3373 : Nat.Prime 3373 := by norm_num

theorem prime_7577 : Nat.Prime 7577 := by norm_num

theorem prime_8101 : Nat.Prime 8101 := by norm_num

theorem prime_10177 : Nat.Prime 10177 := by norm_num

theorem prime_16447 : Nat.Prime 16447 := by norm_num

theorem prime_43591 : Nat.Prime 43591 := by norm_num

theorem prime_421987 : Nat.Prime 421987 := by norm_num

theorem prime_582767 : Nat.Prime 582767 := by norm_num

theorem prime_609743 : Nat.Prime 609743 := by norm_num

theorem prime_755057 : Nat.Prime 755057 := by norm_num

theorem prime_859267 : Nat.Prime 859267 := by norm_num

/-- Lucas certificate: 1686913 is prime (witness 10). -/
theorem prime_1686913 : Nat.Prime 1686913 := by
  refine lucas_cert 1686913 10 [(2, 7), (3, 1), (23, 1), (191, 1)]
    (by decide) (by decide) (by decide) ?_
    (by with_unfolding_all decide) ?_
  · intro pe hpe
    fin_cases hpe
    · exact prime_2
    · exact prime_3
    · exact prime_23
    · exact prime_191
  · intro pe hpe
    fin_cases hpe
    all_goals with_unfolding_all decide

/-- Lucas certificate: 51376543 is prime (witness 3). -/
theorem prime_51376543 : Nat.Prime 51376543 := by
  refine lucas_cert 51376543 3 [(2, 1), (3, 1), (7, 1), (151, 1), (8101, 1)]
    (by decide) (by decide) (by decide) ?_
    (by with_unfolding_all decide) ?_
  · intro pe hpe
    fin_cases hpe
    · exact prime_2
    · exact prime_3
    · exact prime_7
    · exact prime_151
    · exact prime_8101
  · intro pe hpe
    fin_cases hpe
    all_goals with_unfolding_all decide

/-- Lucas certificate: 52437899 is prime (witness 2). -/
theorem prime_52437899 : Nat.Prime 52437899 := by
  refine lucas_cert 52437899 2 [(2, 1), (43, 1), (609743, 1)]
    (by decide) (by decide) (by decide) ?_
    (by with_unfolding_all decide) ?_
  · intro pe hpe
    fin_cases hpe
    · exact prime_2
    · exact prime_43
    · exact prime_609743
  · intro pe hpe
    fin_cases hpe
    all_goals with_unfolding_all decide

/-- Lucas certificate: 475709467 is prime (witness 2). -/
theorem prime_475709467 : Nat.Prime 475709467 := by
  refine lucas_cert 475709467 2 [(2, 1), (3, 1), (47, 1), (1686913, 1)]
    (by decide) (by decide) (by decide) ?_
    (by with_unfolding_all decide) ?_
  · intro pe hpe
    fin_cases hpe
    · exact prime_2
    · exact prime_3
    · exact prime_47
    · exact prime_1686913
  · intro pe hpe
    fin_cases hpe
    all_goals with_unfolding_all decide

/-- Lucas certificate: 927093389 is prime (witness 3). -/
theorem prime_927093389 : Nat.Prime 927093389 := by
  refine lucas_cert 927093389 3 [(2, 2), (13, 1), (409, 1), (43591, 1)]
    (by decide) (by decide) (by decide) ?_
    (by with_unfolding_all decide) ?_
  · intro pe hpe
    fin_cases hpe
    · exact prime_2
    · exact prime_13
    · exact prime_409
    · exact prime_43591
  · intro pe hpe
    fin_cases hpe
    all_goals with_unfolding_all decide

/-- Lucas certificate: 13090036741 is prime (witness 10). -/
theorem prime_13090036741 : Nat.Prime 13090036741 := by
  refine lucas_cert 13090036741 10 [(2, 2), (3, 1), (5, 1), (11, 1), (47, 1), (421987, 1)]
    (by decide) (by decide) (by decide) ?_
    (by with_unfolding_all decide) ?_
  · intro pe hpe
    fin_cases hpe
    · exact prime_2
    · exact prime_3
    · exact prime_5
    · exact prime_11
    · exact prime_47
    · exact prime_421987
  · intro pe hpe
    fin_cases hpe
    all_goals with_unfolding_all decide

/-- Lucas certificate: 43670061551 is prime (witness 7). -/
theorem prime_43670061551 : Nat.Prime 43670061551 := by
  refine lucas_cert 43670061551 7 [(2, 1), (5, 2), (17, 1), (51376543, 1)]
    (by decide) (by decide) (by decide) ?_
    (by with_unfolding_all decide) ?_
  · intro pe hpe
    fin_cases hpe
    · exact prime_2
    · exact prime_5
    · exact prime_17
    · exact prime_51376543
  · intro pe hpe
    fin_cases hpe
    all_goals with_unfolding_all decide

/-- Lucas certificate: 9272813673901 is prime (witness 2). -/
theorem prime_9272813673901 : Nat.Prime 9272813673901 := by
  refine lucas_cert 9272813673901 2 [(2, 2), (3, 1), (5, 2), (7, 1), (7577, 1), (582767, 1)]
    (by decide) (by decide) (by decide) ?_
    (by with_unfolding_all decide) ?_
  · intro pe hpe
    fin_cases hpe
    · exact prime_2
    · exact prime_3
    · exact prime_5
    · exact prime_7
    · exact prime_7577
    · exact prime_582767
  · intro pe hpe
    fin_cases hpe
    all_goals with_unfolding_all decide

/-- Lucas certificate: 64881703735777 is prime (witness 5). -/
theorem prime_64881703735777 : Nat.Prime 64881703735777 := by
  refine lucas_cert 64881703735777 5 [(2, 5), (3, 7), (927093389, 1)]
    (by decide) (by decide) (by decide) ?_
    (by with_unfolding_all decide) ?_
  · intro pe hpe
    fin_cases hpe
    · exact prime_2
    · exact prime_3
    · exact prime_927093389
  · intro pe hpe
    fin_cases hpe
    all_goals with_unfolding_all decide

/-- Lucas certificate: 1928745244171409 is prime (witness 3). -/
theorem prime_1928745244171409 : Nat.Prime 1928745244171409 := by
  refine lucas_cert 1928745244171409 3 [(2, 4), (13, 1), (9272813673901, 1)]
    (by decide) (by decide) (by decide) ?_
    (by with_unfolding_all decide) ?_
  · intro pe hpe
    fin_cases hpe
    · exact prime_2
    · exact prime_13
    · exact prime_9272813673901
  · intro pe hpe
    fin_cases hpe
    all_goals with_unfolding_all decide

/-- Lucas certificate: 7259797099061183477 is prime (witness 2). -/
theorem prime_7259797099061183477 : Nat.Prime 7259797099061183477 := by
  refine lucas_cert 7259797099061183477 2 [(2, 2), (941, 1), (1928745244171409, 1)]
    (by decide) (by decide) (by decide) ?_
    (by with_unfolding_all decide) ?_
  · intro pe hpe
    fin_cases hpe
    · exact prime_2
    · exact prime_941
    · exact prime_1928745244171409
  · intro pe hpe
    fin_cases hpe
    all_goals with_unfolding_all decide

/-- Lucas certificate: 2584487767265781317813 is prime (witness 2). -/
theorem prime_2584487767265781317813 : Nat.Prime 2584487767265781317813 := by
  refine lucas_cert 2584487767265781317813 2 [(2, 2), (89, 1), (7259797099061183477, 1)]
    (by decide) (by decide) (by decide) ?_
    (by with_unfolding_all decide) ?_
  · intro pe hpe
    fin_cases hpe
    · exact prime_2
    · exact prime_89
    · exact prime_7259797099061183477
  · intro pe hpe
    fin_cases hpe
    all_goals with_unfolding_all decide

/-- Lucas certificate: 3819663927398918131021 is prime (witness 6). -/
theorem prime_3819663927398918131021 : Nat.Prime 3819663927398918131021 := by
  refine lucas_cert 3819663927398918131021 6 [(2, 2), (3, 2), (5, 1), (19, 1), (113, 1), (755057, 1), (13090036741, 1)]
    (by decide) (by decide) (by decide) ?_
    (by with_unfolding_all decide) ?_
  · intro pe hpe
    fin_cases hpe
    · exact prime_2
    · exact prime_3
    · exact prime_5
    · exact prime_19
    · exact prime_113
    · exact prime_755057
    · exact prime_13090036741
  · intro pe hpe
    fin_cases hpe
    all_goals with_unfolding_all decide

/-- Lucas certificate: 92691255082156974996979 is prime (witness 3). -/
theorem prime_92691255082156974996979 : Nat.Prime 92691255082156974996979 := by
  refine lucas_cert 92691255082156974996979 3 [(2, 1), (3, 1), (31, 1), (467, 1), (16447, 1), (64881703735777, 1)]
    (by decide) (by decide) (by decide) ?_
    (by with_unfolding_all decide) ?_
  · intro pe hpe
    fin_cases hpe
    · exact prime_2
    · exact prime_3
    · exact prime_31
    · exact prime_467
    · exact prime_16447
    · exact prime_64881703735777
  · intro pe hpe
    fin_cases hpe
    all_goals with_unfolding_all decide

/-- Lucas certificate: 1125266252156850182658904441386709967 is prime (witness 5). -/
theorem prime_1125266252156850182658904441386709967 : Nat.Prime 1125266252156850182658904441386709967 := by
  refine lucas_cert 1125266252156850182658904441386709967 5 [(2, 1), (3373, 1), (43670061551, 1), (3819663927398918131021, 1)]
    (by decide) (by decide) (by decide) ?_
    (by with_unfolding_all decide) ?_
  · intro pe hpe
    fin_cases hpe
    · exact prime_2
    · exact prime_3373
    · exact prime_43670061551
    · exact prime_3819663927398918131021
  · intro pe hpe
    fin_cases hpe
    all_goals with_unfolding_all decide

/-- Lucas certificate: 15778400344354997994418419698270088123916926905054652752758194827714659 is prime (witness 2). -/
theorem prime_15778400344354997994418419698270088123916926905054652752758194827714659 : Nat.Prime 15778400344354997994418419698270088123916926905054652752758194827714659 := by
  refine lucas_cert 15778400344354997994418419698270088123916926905054652752758194827714659 2 [(2, 1), (3, 1), (53, 1), (475709467, 1), (92691255082156974996979, 1), (1125266252156850182658904441386709967, 1)]
    (by decide) (by decide) (by decide) ?_
    (by with_unfolding_all decide) ?_
  · intro pe hpe
    fin_cases hpe
    · exact prime_2
    · exact prime_3
    · exact prime_53
    · exact prime_475709467
    · exact prime_92691255082156974996979
    · exact prime_1125266252156850182658904441386709967
  · intro pe hpe
    fin_cases hpe
    all_goals with_unfolding_all decide

/-- Lucas certificate: pbls is prime (witness 2). -/
theorem pbls_prime : Nat.Prime pbls := by
  refine lucas_cert pbls 2 [(2, 1), (3, 2), (11, 1), (23, 1), (47, 1), (10177, 1), (859267, 1), (52437899, 1), (2584487767265781317813, 1), (15778400344354997994418419698270088123916926905054652752758194827714659, 1)]
    (by decide) (by decide) (by decide) ?_
    (by with_unfolding_all decide) ?_
  · intro pe hpe
    fin_cases hpe
    · exact prime_2
    · exact prime_3
    · exact prime_11
    · exact prime_23
    · exact prime_47
    · exact prime_10177
    · exact prime_859267
    · exact prime_52437899
    · exact prime_2584487767265781317813
    · exact prime_15778400344354997994418419698270088123916926905054652752758194827714659
  · intro pe hpe
    fin_cases hpe
    all_goals with_unfolding_all decide

instance : Fact (Nat.Prime pbls) := ⟨pbls_prime⟩

instance : NeZero pbls := ⟨by decide⟩

instance : Fact (1 < pbls) := ⟨by decide⟩

theorem cast_modmul (a b : Nat) :
    ((modmul a b : Nat) : ZMod pbls) = (a : ZMod pbls) * b := by
  rw [modmul, ZMod.natCast_mod, Nat.cast_mul, ZMod.natCast_mod, ZMod.natCast_mod]

theorem cast_addmod (a b : Nat) :
    (((a + b) % pbls : Nat) : ZMod pbls) = (a : ZMod pbls) + b := by
  rw [ZMod.natCast_mod, Nat.cast_add]

theorem cast_modneg (a : Nat) :
    ((modneg a : Nat) : ZMod pbls) = -(a : ZMod pbls) := by
  rw [modneg, ZMod.natCast_mod,
    Nat.cast_sub (le_of_lt (Nat.mod_lt _ (by decide : 0 < pbls))),
    ZMod.natCast_self, ZMod.natCast_mod]
  ring

theorem cast_powmod (x e : Nat) (he : e < 2 ^ 600) :
    ((powmod x e pbls : Nat) : ZMod pbls) = (x : ZMod pbls) ^ e := by
  rw [powmod_correct x e pbls he, ZMod.natCast_mod, Nat.cast_pow]

theorem powmod_lt (x e p : Nat) (hp : 0 < p) (he : e < 2 ^ 600) :
    powmod x e p < p := by
  rw [powmod_correct x e p he]
  exact Nat.mod_lt _ hp

theorem zmod_pow_card_sub_two (a : ZMod pbls) : a ^ (pbls - 2) = a⁻¹ := by
  by_cases h : a = 0
  · subst h
    rw [zero_pow (by decide : pbls - 2 ≠ 0), eq_comm, inv_zero]
  · have h1 : a ^ (pbls - 2) * a = 1 := by
      rw [← pow_succ]
      have he : pbls - 2 + 1 = pbls - 1 := by decide
      rw [he]
      exact ZMod.pow_card_sub_one_eq_one h
    exact eq_inv_of_mul_eq_one_left h1

theorem cast_inv0 (x : Nat) :
    ((inv0 x : Nat) : ZMod pbls) = (x : ZMod pbls)⁻¹ := by
  rw [inv0, cast_powmod _ _ (by decide : pbls - 2 < 2 ^ 600), zmod_pow_card_sub_two]

theorem cast_eq_zero_iff_of_lt (t : Nat) (h : t < pbls) :
    ((t : ZMod pbls) = 0) ↔ t = 0 := by
  constructor
  · intro hc
    have := congrArg ZMod.val hc
    rwa [ZMod.val_natCast_of_lt h, ZMod.val_zero] at this
  · intro hc; subst hc; exact Nat.cast_zero

theorem cast_eq_one_iff_of_lt (t : Nat) (h : t < pbls) :
    ((t : ZMod pbls) = 1) ↔ t = 1 := by
  constructor
  · intro hc
    have := congrArg ZMod.val hc
    rwa [ZMod.val_natCast_of_lt h, ZMod.val_one] at this
  · intro hc; subst hc; exact Nat.cast_one

theorem chi_cases (g : ZMod pbls) (hg : g ≠ 0) :
    g ^ ((pbls - 1) / 2) = 1 ∨ g ^ ((pbls - 1) / 2) = -1 := by
  have h2 : g ^ ((pbls - 1) / 2) * g ^ ((pbls - 1) / 2) = 1 := by
    rw [← pow_add]
    have he : (pbls - 1) / 2 + (pbls - 1) / 2 = pbls - 1 := by decide
    rw [he]
    exact ZMod.pow_card_sub_one_eq_one hg
  exact mul_self_eq_one_iff.mp h2

theorem sqrt_sq_of_chi (g : ZMod pbls)
    (h : g ^ ((pbls - 1) / 2) = 0 ∨ g ^ ((pbls - 1) / 2) = 1) :
    (g ^ ((pbls + 1) / 4)) ^ 2 = g := by
  rcases h with h | h
  · have hg : g = 0 := (pow_eq_zero_iff (by decide : (pbls - 1) / 2 ≠ 0)).mp h
    subst hg
    rw [zero_pow (by decide : (pbls + 1) / 4 ≠ 0), zero_pow (by decide : (2 : Nat) ≠ 0)]
  · rw [← pow_mul]
    have he : (pbls + 1) / 4 * 2 = (pbls - 1) / 2 + 1 := by decide
    rw [he, pow_succ, h, one_mul]

end Bls381G1

namespace Bls381G1

/-- The Legendre symbol of `Z = 11` is `-1`: `Z` is a non-square mod `p`
(checked by the kernel via binary exponentiation). -/
theorem chi_Z_eq_neg_one :
    ((Zswu : Nat) : ZMod pbls) ^ ((pbls - 1) / 2) = -1 := by
  have h : powmod Zswu ((pbls - 1) / 2) pbls = pbls - 1 := by
    with_unfolding_all decide
  have hc := cast_powmod Zswu ((pbls - 1) / 2) (by decide)
  rw [h, Nat.cast_sub (by decide : 1 ≤ pbls), ZMod.natCast_self, Nat.cast_one] at hc
  rw [← hc]
  ring

/-- The Nat-level value `g(C1*C2)` of the auxiliary curve polynomial at the
exceptional SSWU abscissa `x1 = C1*C2`. -/
def gx0 : Nat := (modmul C1val C2val ^ 3 + ISO_A * modmul C1val C2val + ISO_B) % pbls

/-- `g(C1*C2)` is a non-zero square mod `p` (its Euler power is 1; checked
by the kernel). -/
theorem chi_gx0_eq_one : powmod gx0 ((pbls - 1) / 2) pbls = 1 := by
  with_unfolding_all decide

/-- In the field: `A' * C1 = -B'`. -/
theorem AC1B_F : (ISO_A : ZMod pbls) * C1val = -(ISO_B : ZMod pbls) := by
  have h := ISO_A_C1_matches_ISO_B
  have hc : ((ISO_A * C1val % pbls : Nat) : ZMod pbls) = ((pbls - ISO_B : Nat) : ZMod pbls) := by
    rw [h]
  rw [ZMod.natCast_mod, Nat.cast_mul,
    Nat.cast_sub (by decide : ISO_B ≤ pbls), ZMod.natCast_self] at hc
  rw [hc]
  ring

end Bls381G1

namespace Bls381G1

theorem modmul_lt (a b : Nat) : modmul a b < pbls :=
  Nat.mod_lt _ (by decide)

theorem modneg_lt (a : Nat) : modneg a < pbls :=
  Nat.mod_lt _ (by decide)

theorem inv0_lt (x : Nat) : inv0 x < pbls := by
  rw [inv0]
  exact powmod_lt _ _ _ (by decide) (by decide)

theorem sqrt_3mod4_lt (x : Nat) : sqrt_3mod4 x < pbls := by
  rw [sqrt_3mod4]
  exact powmod_lt _ _ _ (by decide) (by decide)

theorem cmov_true (a b : Nat) : cmov a b true = b := rfl

theorem cmov_false (a b : Nat) : cmov a b false = a := rfl

theorem cast_sqrt_3mod4 (x : Nat) :
    ((sqrt_3mod4 x : Nat) : ZMod pbls) = (x : ZMod pbls) ^ ((pbls + 1) / 4) := by
  rw [sqrt_3mod4, cast_powmod x SQRT_C1val (by decide), SQRT_C1val_eq]

theorem is_square_true_iff (g : Nat) :
    is_square g = true ↔
      ((g : ZMod pbls) ^ ((pbls - 1) / 2) = 0 ∨
       (g : ZMod pbls) ^ ((pbls - 1) / 2) = 1) := by
  simp only [is_square, Bool.or_eq_true, beq_iff_eq]
  have hlt : powmod g PM1DIV2val pbls < pbls :=
    powmod_lt _ _ _ (by decide) (by decide)
  have hcast : ((powmod g PM1DIV2val pbls : Nat) : ZMod pbls)
      = (g : ZMod pbls) ^ ((pbls - 1) / 2) := by
    rw [cast_powmod g PM1DIV2val (by decide), PM1DIV2val_eq]
  constructor
  · rintro (h | h)
    · left; rw [← hcast, h, Nat.cast_zero]
    · right; rw [← hcast, h, Nat.cast_one]
  · rintro (h | h)
    · left
      exact (cast_eq_zero_iff_of_lt _ hlt).mp (by rw [hcast]; exact h)
    · right
      exact (cast_eq_one_iff_of_lt _ hlt).mp (by rw [hcast]; exact h)

theorem inv0_eq_zero_iff (s : Nat) :
    (inv0 s == 0) = true ↔ ((s : ZMod pbls) = 0) := by
  rw [beq_iff_eq]
  constructor
  · intro h
    have hc : ((inv0 s : Nat) : ZMod pbls) = 0 := by rw [h, Nat.cast_zero]
    rw [cast_inv0] at hc
    exact inv_eq_zero.mp hc
  · intro h
    have hc : ((inv0 s : Nat) : ZMod pbls) = 0 := by
      rw [cast_inv0, h, inv_zero]
    exact (cast_eq_zero_iff_of_lt _ (inv0_lt s)).mp hc

end Bls381G1

namespace Bls381G1

/-- C3: `map_to_curve_simple_swu` is total: for EVERY `u` the output pair is
canonical in `F_p × F_p` and satisfies the auxiliary curve equation
`y^2 = x^3 + A'x + B' (mod p)` — including `u = 0` and all `u` with
`tv1 + tv2 = 0`. -/
theorem map_to_curve_simple_swu_total_on_curve (u : Nat) :
    (map_to_curve_simple_swu u).1 < pbls ∧
    (map_to_curve_simple_swu u).2 < pbls ∧
    (map_to_curve_simple_swu u).2 ^ 2 % pbls =
      ((map_to_curve_simple_swu u).1 ^ 3 +
        ISO_A * (map_to_curve_simple_swu u).1 + ISO_B) % pbls := by
  simp only [map_to_curve_simple_swu]
  set tv1 := modmul Zswu (modsqr u) with htv1
  set tv2 := modsqr tv1 with htv2
  set x1s := (tv1 + tv2) % pbls with hx1s
  set x1i := inv0 x1s with hx1i
  set e1 := (x1i == 0) with he1
  set x1c := cmov (x1i + 1) C2val e1 with hx1c
  set x1 := modmul x1c C1val with hx1
  set gx1 := (modmul ((modsqr x1 + ISO_A) % pbls) x1 + ISO_B) % pbls with hgx1
  set x2 := modmul tv1 x1 with hx2
  set tv2b := modmul tv1 tv2 with htv2b
  set gx2 := modmul gx1 tv2b with hgx2
  set e2 := is_square gx1 with he2
  set xo := cmov x2 x1 e2 with hxo
  set y2v := cmov gx2 gx1 e2 with hy2v
  set yv := sqrt_3mod4 y2v with hyv
  set e3 := (sgn0 u == sgn0 yv) with he3
  set yn := cmov (modneg yv) yv e3 with hyn
  show xo < pbls ∧ yn < pbls ∧
    yn ^ 2 % pbls = (xo ^ 3 + ISO_A * xo + ISO_B) % pbls
  have hxo_lt : xo < pbls := by
    rcases Bool.eq_false_or_eq_true e2 with h | h
    · rw [hxo, h, cmov_true, hx1]; exact modmul_lt _ _
    · rw [hxo, h, cmov_false, hx2]; exact modmul_lt _ _
  have hyn_lt : yn < pbls := by
    rcases Bool.eq_false_or_eq_true e3 with h | h
    · rw [hyn, h, cmov_true, hyv]; exact sqrt_3mod4_lt _
    · rw [hyn, h, cmov_false]; exact modneg_lt _
  refine ⟨hxo_lt, hyn_lt, ?_⟩
  rw [← ZMod.natCast_eq_natCast_iff']
  push_cast
  have hT1 : ((tv1 : Nat) : ZMod pbls)
      = ((Zswu : Nat) : ZMod pbls) * ((u : Nat) : ZMod pbls) ^ 2 := by
    rw [htv1, modsqr, cast_modmul, cast_modmul, sq]
  have hT2 : ((tv2 : Nat) : ZMod pbls) = ((tv1 : Nat) : ZMod pbls) ^ 2 := by
    rw [htv2, modsqr, cast_modmul, sq]
  have hS : ((x1s : Nat) : ZMod pbls)
      = ((tv1 : Nat) : ZMod pbls) + ((tv1 : Nat) : ZMod pbls) ^ 2 := by
    rw [hx1s, cast_addmod, hT2]
  have hGX1 : ((gx1 : Nat) : ZMod pbls)
      = (((x1 : Nat) : ZMod pbls) * ((x1 : Nat) : ZMod pbls) + (ISO_A : ZMod pbls)) *
          ((x1 : Nat) : ZMod pbls) + (ISO_B : ZMod pbls) := by
    rw [hgx1, cast_addmod, cast_modmul, cast_addmod, modsqr, cast_modmul]
  have hGX2 : ((gx2 : Nat) : ZMod pbls)
      = ((gx1 : Nat) : ZMod pbls) *
          (((tv1 : Nat) : ZMod pbls) * ((tv1 : Nat) : ZMod pbls) ^ 2) := by
    rw [hgx2, cast_modmul, htv2b, cast_modmul, hT2]
  have hyn2 : ((yn : Nat) : ZMod pbls) ^ 2 = ((yv : Nat) : ZMod pbls) ^ 2 := by
    rcases Bool.eq_false_or_eq_true e3 with h | h
    · rw [hyn, h, cmov_true]
    · rw [hyn, h, cmov_false, cast_modneg, neg_sq]
  have hyv2 : ((yv : Nat) : ZMod pbls) ^ 2
      = (((y2v : Nat) : ZMod pbls) ^ ((pbls + 1) / 4)) ^ 2 := by
    rw [hyv, cast_sqrt_3mod4]
  show ((yn : Nat) : ZMod pbls) ^ 2
      = ((xo : Nat) : ZMod pbls) ^ 3 + (ISO_A : ZMod pbls) * ((xo : Nat) : ZMod pbls) +
        (ISO_B : ZMod pbls)
  rw [hyn2, hyv2]
  rcases Bool.eq_false_or_eq_true e2 with h2 | h2
  · -- gx1 IS a square: x = x1, y² = gx1
    have h2' := h2
    rw [he2] at h2'
    have hchi01 := (is_square_true_iff gx1).mp h2'
    have hy2vv : ((y2v : Nat) : ZMod pbls) = ((gx1 : Nat) : ZMod pbls) := by
      rw [hy2v, h2, cmov_true]
    have hxov : ((xo : Nat) : ZMod pbls) = ((x1 : Nat) : ZMod pbls) := by
      rw [hxo, h2, cmov_true]
    rw [hy2vv, sqrt_sq_of_chi _ hchi01, hGX1, hxov]
    ring
  · -- gx1 is NOT a square: x = x2 = tv1*x1, y² = gx2 = gx1·tv1³
    have hnotsq : ¬ (((gx1 : Nat) : ZMod pbls) ^ ((pbls - 1) / 2) = 0 ∨
        ((gx1 : Nat) : ZMod pbls) ^ ((pbls - 1) / 2) = 1) := by
      intro hcon
      have hT := (is_square_true_iff gx1).mpr hcon
      rw [← he2, h2] at hT
      exact Bool.noConfusion hT
    have hgx1ne : ((gx1 : Nat) : ZMod pbls) ≠ 0 := by
      intro h0
      exact hnotsq (Or.inl (by rw [h0, zero_pow (by decide : (pbls - 1) / 2 ≠ 0)]))
    have hchi : ((gx1 : Nat) : ZMod pbls) ^ ((pbls - 1) / 2) = -1 := by
      rcases chi_cases _ hgx1ne with h | h
      · exact absurd (Or.inr h) hnotsq
      · exact h
    have hSne : ((x1s : Nat) : ZMod pbls) ≠ 0 := by
      intro hS0
      have he1t : e1 = true := by
        rw [he1]
        exact (inv0_eq_zero_iff x1s).mpr hS0
      have hx1v : ((x1 : Nat) : ZMod pbls)
          = ((C2val : Nat) : ZMod pbls) * ((C1val : Nat) : ZMod pbls) := by
        rw [hx1, cast_modmul, hx1c, he1t, cmov_true]
      have hgx0cast : ((gx1 : Nat) : ZMod pbls) = ((gx0 : Nat) : ZMod pbls) := by
        rw [hGX1, hx1v, gx0, ZMod.natCast_mod, Nat.cast_add, Nat.cast_add,
          Nat.cast_mul, Nat.cast_pow, cast_modmul]
        ring
      have hchi1 : ((gx1 : Nat) : ZMod pbls) ^ ((pbls - 1) / 2) = 1 := by
        rw [hgx0cast]
        have hc := cast_powmod gx0 ((pbls - 1) / 2) (by decide)
        rw [chi_gx0_eq_one, Nat.cast_one] at hc
        exact hc.symm
      exact hnotsq (Or.inr hchi1)
    have hT1ne : ((tv1 : Nat) : ZMod pbls) ≠ 0 := by
      intro h0
      exact hSne (by rw [hS, h0]; ring)
    have hUne : ((u : Nat) : ZMod pbls) ≠ 0 := by
      intro h0
      refine hT1ne ?_
      rw [hT1, h0]
      ring
    have he1f : e1 = false := by
      rcases Bool.eq_false_or_eq_true e1 with h | h
      · rw [he1] at h
        exact absurd ((inv0_eq_zero_iff x1s).mp h) hSne
      · exact h
    have hX1v : ((x1 : Nat) : ZMod pbls)
        = (((x1s : Nat) : ZMod pbls)⁻¹ + 1) * ((C1val : Nat) : ZMod pbls) := by
      rw [hx1, cast_modmul, hx1c, he1f, cmov_false, Nat.cast_add, Nat.cast_one,
        cast_inv0]
    have h5 : (ISO_A : ZMod pbls) * ((x1 : Nat) : ZMod pbls) * ((x1s : Nat) : ZMod pbls)
        = -(ISO_B : ZMod pbls) * (((x1s : Nat) : ZMod pbls) + 1) := by
      rw [hX1v]
      have hinv : ((x1s : Nat) : ZMod pbls) * ((x1s : Nat) : ZMod pbls)⁻¹ = 1 :=
        mul_inv_cancel₀ hSne
      calc (ISO_A : ZMod pbls) * ((((x1s : Nat) : ZMod pbls)⁻¹ + 1) *
              ((C1val : Nat) : ZMod pbls)) * ((x1s : Nat) : ZMod pbls)
          = (ISO_A : ZMod pbls) * ((C1val : Nat) : ZMod pbls) *
              (((x1s : Nat) : ZMod pbls) * ((x1s : Nat) : ZMod pbls)⁻¹ +
                ((x1s : Nat) : ZMod pbls)) := by ring
        _ = (ISO_A : ZMod pbls) * ((C1val : Nat) : ZMod pbls) *
              (1 + ((x1s : Nat) : ZMod pbls)) := by rw [hinv]
        _ = -(ISO_B : ZMod pbls) * (((x1s : Nat) : ZMod pbls) + 1) := by
            rw [AC1B_F]; ring
    rw [hS] at h5
    have hkey : (((tv1 : Nat) : ZMod pbls) * ((x1 : Nat) : ZMod pbls)) ^ 3 +
          (ISO_A : ZMod pbls) * (((tv1 : Nat) : ZMod pbls) * ((x1 : Nat) : ZMod pbls)) +
          (ISO_B : ZMod pbls)
        = ((tv1 : Nat) : ZMod pbls) ^ 3 *
          (((x1 : Nat) : ZMod pbls) ^ 3 +
            (ISO_A : ZMod pbls) * ((x1 : Nat) : ZMod pbls) + (ISO_B : ZMod pbls)) := by
      linear_combination (1 - ((tv1 : Nat) : ZMod pbls)) * h5
    have hchiT1 : ((tv1 : Nat) : ZMod pbls) ^ ((pbls - 1) / 2) = -1 := by
      rw [hT1, mul_pow, ← pow_mul]
      have h2h : 2 * ((pbls - 1) / 2) = pbls - 1 := by decide
      rw [h2h, ZMod.pow_card_sub_one_eq_one hUne, mul_one, chi_Z_eq_neg_one]
    have hchi2 : ((gx2 : Nat) : ZMod pbls) ^ ((pbls - 1) / 2) = 1 := by
      have ht3 : ((tv1 : Nat) : ZMod pbls) * ((tv1 : Nat) : ZMod pbls) ^ 2
          = ((tv1 : Nat) : ZMod pbls) ^ 3 := by ring
      rw [hGX2, ht3, mul_pow, hchi, ← pow_mul, mul_comm 3 ((pbls - 1) / 2), pow_mul,
        hchiT1]
      ring
    have hy2vv : ((y2v : Nat) : ZMod pbls) = ((gx2 : Nat) : ZMod pbls) := by
      rw [hy2v, h2, cmov_false]
    have hxov : ((xo : Nat) : ZMod pbls)
        = ((tv1 : Nat) : ZMod pbls) * ((x1 : Nat) : ZMod pbls) := by
      rw [hxo, h2, cmov_false, hx2, cast_modmul]
    rw [hy2vv, sqrt_sq_of_chi _ (Or.inr hchi2), hGX2, hGX1, hxov]
    linear_combination (-1 : ZMod pbls) * hkey

end Bls381G1
